import Mathlib

/-!
Verification of the CODEREDASTRA point-ledger and window-aggregation engine.

The definitions below are a shallow embedding of the repository's aggregation
code paths:

* `backend/scripts/createMonthlyLeaderboard.js` (`createMonthly`): the
  boundary-delta ranking path over `users/{uid}/dailyPoints/{YYYY-MM-DD}`.
* `backend/weeklyAggregate.js` (`aggregateWeek`): the weekly ranking path's
  per-user day-by-day scan with its first-in-week start value and its
  one-day-before / current-counter fallbacks.
* `src/components/PointsLeaderboard.tsx` (`chartData`): the per-day
  chart-reconstruction path.
* `backend/scripts/backfillDailyPoints.js` (`backfill`): the batched
  synthetic-series backfill tool.
* `backend/routes/*` (`aggregate-weekly` / `aggregate-monthly`): the
  admin-token-gated aggregation trigger.
* `src/components/PhotoAnalysis.tsx` (`updateUserPoints`,
  `analyzeWithGemini`): the counter-increment path.

Dates are `YYYY-MM-DD` strings; the code relies on lexicographic string order
coinciding with chronological order, and every comparison below is the same
string comparison Firestore performs on the `date` field.
-/

namespace CodeRedAstra

/-- The JS string comparison `a < b` the code performs on `YYYY-MM-DD` date
keys and on account ids: lexicographic comparison of the character
sequences (UTF-16 code-unit order and code-point order agree on these
ASCII keys). -/
def strLt (a b : String) : Prop := a.data < b.data

/-- The JS string comparison `a <= b`: on a total string order this is the
negation of the reversed strict comparison. -/
def strLe (a b : String) : Prop := ¬ b.data < a.data

instance (a b : String) : Decidable (strLt a b) :=
  inferInstanceAs (Decidable (a.data < b.data))

instance (a b : String) : Decidable (strLe a b) :=
  inferInstanceAs (Decidable (¬ b.data < a.data))

/-- A document of a user's `dailyPoints` subcollection: a dated sample of the
cumulative counters (`{ date, points, itemsRecycled }` as written by the
backfill tool and read by both aggregation paths). -/
structure Snap where
  date : String
  points : Nat
  itemsRecycled : Nat
deriving Repr, DecidableEq

/-- A document of the `users` collection together with its `dailyPoints`
subcollection: `points`/`itemsRecycled` are the live cumulative counters. -/
structure UserDoc where
  uid : String
  name : String
  points : Nat
  itemsRecycled : Nat
  dailyPoints : List Snap
deriving Repr, DecidableEq

/-- The snapshot returned by a Firestore `orderBy('date','desc').limit(1)`
query over a list of snapshots: the one with the greatest `date`. -/
def maxByDate : List Snap → Option Snap
  | [] => none
  | s :: rest =>
    match maxByDate rest with
    | none => some s
    | some m => if strLt m.date s.date then some s else some m

/-- `createMonthly`: `pointsStart` is the `points` of the last snapshot with
`date < startStr` (query `.where('date','<',startStr).orderBy('date','desc')
.limit(1)`), or `0` when that query is empty. -/
def pointsStart (u : UserDoc) (startStr : String) : Nat :=
  match maxByDate (u.dailyPoints.filter (fun s => decide (strLt s.date startStr))) with
  | none => 0
  | some s => s.points

/-- `createMonthly`: `pointsEnd` is the `points` of the last snapshot with
`startStr ≤ date ≤ endStr`, falling back to the user's current `points`
counter when no snapshot exists in the month. -/
def pointsEnd (u : UserDoc) (startStr endStr : String) : Nat :=
  match maxByDate (u.dailyPoints.filter (fun s => decide (strLe startStr s.date ∧ strLe s.date endStr))) with
  | none => u.points
  | some s => s.points

/-- `createMonthly`: `const pointsGained = pointsEnd - pointsStart;` — plain
subtraction, no clamping, hence an `Int`. -/
def monthlyPointsGained (u : UserDoc) (startStr endStr : String) : Int :=
  (pointsEnd u startStr endStr : Int) - (pointsStart u startStr : Int)

/-- `createMonthly`: sum of `itemsRecycled` over all snapshots whose date lies
in `[startStr, endStr]`. -/
def itemsRecycledTotal (u : UserDoc) (startStr endStr : String) : Nat :=
  ((u.dailyPoints.filter (fun s => decide (strLe startStr s.date ∧ strLe s.date endStr))).map
    Snap.itemsRecycled).foldl (fun a b => a + b) 0

/-- `createMonthly`: initials computed from the display name
(`name.split(' ').map(n=>n[0]).join('').toUpperCase().substring(0,2)`). -/
def initialsOf (name : String) : String :=
  ((((name.splitOn " ").map (fun w => w.take 1)).foldl (fun a b => a ++ b) "").toUpper).take 2

/-- One element of the `candidates` array assembled by `createMonthly` before
sorting. -/
structure Candidate where
  uid : String
  name : String
  initials : String
  pointsGained : Int
  pointsEnd : Nat
  itemsRecycled : Nat
deriving Repr, DecidableEq

/-- The candidate `createMonthly` pushes for one user document. -/
def candidateOfUser (u : UserDoc) (startStr endStr : String) : Candidate :=
  { uid := u.uid
    name := u.name
    initials := initialsOf u.name
    pointsGained := monthlyPointsGained u startStr endStr
    pointsEnd := pointsEnd u startStr endStr
    itemsRecycled := itemsRecycledTotal u startStr endStr }

/-- Stable insertion step for the JS `candidates.sort((a,b) =>
b.pointsGained - a.pointsGained)`: a later element is placed after every
already-placed element with `pointsGained ≥` its own, so equal keys keep
their input order exactly as a stable sort does. -/
def insertByGainedDesc (c : Candidate) : List Candidate → List Candidate
  | [] => [c]
  | x :: xs =>
    if c.pointsGained ≤ x.pointsGained then x :: insertByGainedDesc c xs
    else c :: x :: xs

/-- `candidates.sort((a,b) => b.pointsGained - a.pointsGained)` — a stable
descending sort by `pointsGained` (ECMAScript `Array.prototype.sort` is
stable; ties keep the input order of the `users` collection). -/
def sortByGainedDesc (l : List Candidate) : List Candidate :=
  l.foldl (fun acc c => insertByGainedDesc c acc) []

/-- One entry of the `top` array written into the leaderboard snapshot. -/
structure LBEntry where
  rank : Nat
  uid : String
  name : String
  initials : String
  pointsGained : Int
  pointsEnd : Nat
  itemsRecycled : Nat
deriving Repr, DecidableEq

/-- `createMonthly`: `candidates.sort(...)` then `.slice(0, topN)` then
`.map((c, idx) => ({ rank: idx+1, ... }))`. -/
def topEntries (cands : List Candidate) (topN : Nat) : List LBEntry :=
  ((sortByGainedDesc cands).take topN).enum.map
    (fun p =>
      { rank := p.1 + 1
        uid := p.2.uid
        name := p.2.name
        initials := p.2.initials
        pointsGained := p.2.pointsGained
        pointsEnd := p.2.pointsEnd
        itemsRecycled := p.2.itemsRecycled })

/-- Sequential per-account loop of `createMonthly`: each account's Firestore
reads either succeed with the user document or reject.  The `for … await`
loop has no per-account `try`/`catch`, so the first rejection aborts the
whole traversal. -/
def collectAccounts : List (Except String UserDoc) → Except String (List UserDoc)
  | [] => Except.ok []
  | a :: rest =>
    match a with
    | Except.error e => Except.error e
    | Except.ok u =>
      match collectAccounts rest with
      | Except.error e => Except.error e
      | Except.ok us => Except.ok (u :: us)

/-- A whole `createMonthly` run over the listed accounts: builds all
candidates, sorts, truncates and ranks; any per-account error propagates. -/
def createMonthlyRun (accounts : List (Except String UserDoc)) (startStr endStr : String)
    (topN : Nat) : Except String (List LBEntry) :=
  match collectAccounts accounts with
  | Except.error e => Except.error e
  | Except.ok users =>
      Except.ok (topEntries (users.map (fun u => candidateOfUser u startStr endStr)) topN)

/-- The leaderboard snapshot document written at
`leaderboards/monthly/snapshots/{YYYY-MM}`. -/
structure MonthlySnapshot where
  month : String
  startDate : String
  endDate : String
  top : List LBEntry
deriving Repr, DecidableEq

/-- What `createMonthly` persists: the snapshot write happens only after the
full loop succeeded; a rejected promise reaches `.catch(… process.exit(1))`
and nothing is written. -/
def createMonthlyWrite (monthId startStr endStr : String)
    (accounts : List (Except String UserDoc)) (topN : Nat) : Option MonthlySnapshot :=
  match createMonthlyRun accounts startStr endStr topN with
  | Except.error _ => none
  | Except.ok top => some { month := monthId, startDate := startStr, endDate := endStr, top := top }

/-- `PointsLeaderboard.tsx` chart path: `lastOnOrBefore` scans the ascending
`availableDates` from the end and returns the first date `≤ target`; the
pair carries the cumulative value of the `cumulative` map at that date (the
map's keys are unique, so pairing date and value is the same lookup). -/
def chartLastOnOrBefore (cumulative : List (String × Int)) (target : String) :
    Option (String × Int) :=
  cumulative.reverse.find? (fun p => decide (strLe p.1 target))

/-- `PointsLeaderboard.tsx` chart path: `lastBefore`, same scan with a strict
comparison. -/
def chartLastBefore (cumulative : List (String × Int)) (target : String) :
    Option (String × Int) :=
  cumulative.reverse.find? (fun p => decide (strLt p.1 target))

/-- The per-day gain of the chart (`chartData` callback): nearest snapshot on
or before the day, its predecessor as baseline, `0` when either is missing,
and `gain >= 0 ? gain : 0` clamping.  `cumulative` is the sorted unique
(date, points) list built from the fetched docs. -/
def chartGainFor (cumulative : List (String × Int)) (dateStr : String) : Int :=
  match chartLastOnOrBefore cumulative dateStr with
  | none => 0
  | some lastForDay =>
    match chartLastBefore cumulative lastForDay.1 with
    | none => 0
    | some prevForDay =>
      let gain := lastForDay.2 - prevForDay.2
      if 0 ≤ gain then gain else 0

/-- The monotone-ledger assumption of the data model: snapshots of one
account are non-decreasing in date, and the live counter is at least every
recorded sample. -/
def MonotoneLedger (u : UserDoc) : Prop :=
  (∀ a ∈ u.dailyPoints, ∀ b ∈ u.dailyPoints, strLe a.date b.date → a.points ≤ b.points) ∧
  (∀ a ∈ u.dailyPoints, a.points ≤ u.points)

instance (u : UserDoc) : Decidable (MonotoneLedger u) := by
  unfold MonotoneLedger
  infer_instance

/-- The ordering the claim asserts for a built leaderboard: strictly
descending `pointsGained`, ties broken by ascending account id. -/
def tieBrokenByUid (l : List Candidate) : Prop :=
  l.Pairwise (fun a b => b.pointsGained < a.pointsGained ∨
    (a.pointsGained = b.pointsGained ∧ strLt a.uid b.uid))

instance (l : List Candidate) : Decidable (tieBrokenByUid l) := by
  unfold tieBrokenByUid
  infer_instance

/-- One `batch.set(..., { merge: true })` of the backfill tool, targeting the
doc `users/{uid}/dailyPoints/{date}` with fields `{ date, points,
itemsRecycled, generatedAt }`. -/
structure DayWrite where
  date : String
  points : Nat
  itemsRecycled : Nat
deriving Repr, DecidableEq

/-- A user's `dailyPoints` subcollection as a keyed document store mapping a
date id to its `(points, itemsRecycled)` fields. -/
def DayStore : Type := String → Option (Nat × Nat)

/-- A store with no documents. -/
def emptyDayStore : DayStore := fun _ => none

/-- Effect of one `set(..., { merge: true })`: the write carries the
`points` and `itemsRecycled` fields, so both are replaced (merging only
helps fields the write does not mention). -/
def setMergeWrite (f : DayStore) (w : DayWrite) : DayStore :=
  fun d => if d = w.date then some (w.points, w.itemsRecycled) else f d

/-- Applying a sequence of writes in order. -/
def applyWrites (f : DayStore) (ws : List DayWrite) : DayStore :=
  ws.foldl setMergeWrite f

/-- `increments.slice(0, k).reduce((s, n) => s + n, 0)`. -/
def sumTake (l : List Nat) (k : Nat) : Nat :=
  (l.take k).foldl (fun a b => a + b) 0

/-- The sequence of writes one `backfill` run issues for one user.  `dates`
are the day ids `dateStr − (daysCount−1) … dateStr` (oldest first, computed
by UTC day arithmetic in the source); `r0` is the random backdrop draw, so
`startPoints = Math.max(0, currentPoints - r0)` is `currentPoints - r0` in
truncated `Nat` subtraction; `incs` are the random daily increments
(`0..50`) and `itemDraws` the random `0..4` variations added to the items
base.  Day `idx` gets `points = startPoints + sum of the first idx+1
increments`. -/
def backfillWrites (dates : List String) (currentPoints itemsRecycledBase r0 : Nat)
    (incs itemDraws : List Nat) : List DayWrite :=
  dates.enum.map (fun p =>
    { date := p.2
      points := (currentPoints - r0) + sumTake incs (p.1 + 1)
      itemsRecycled := itemsRecycledBase + itemDraws.getD p.1 0 })

/-- A whole per-user `backfill` run applied to the user's snapshot store. -/
def runBackfillUser (f : DayStore) (dates : List String)
    (currentPoints itemsRecycledBase r0 : Nat) (incs itemDraws : List Nat) : DayStore :=
  applyWrites f (backfillWrites dates currentPoints itemsRecycledBase r0 incs itemDraws)

/-- The last write of a sequence targeting a given date, i.e. the one whose
value survives. -/
def findLastWrite (ws : List DayWrite) (d : String) : Option DayWrite :=
  ws.reverse.find? (fun w => decide (w.date = d))

/-- `backfill` batching state: `writeCount` pending writes in the open batch
and the sizes of the batches committed so far. -/
structure BatchState where
  writeCount : Nat
  committed : List Nat
deriving Repr, DecidableEq

/-- `const writesPerBatch = 450; // keep under 500`. -/
def writesPerBatch : Nat := 450

/-- One `batch.set(...); writeCount++;` step followed by the
`if (writeCount >= writesPerBatch) { commit; reset }` check. -/
def pushWrite (st : BatchState) : BatchState :=
  let wc := st.writeCount + 1
  if writesPerBatch ≤ wc then { writeCount := 0, committed := st.committed ++ [wc] }
  else { writeCount := wc, committed := st.committed }

/-- The batching state after the nested user/day loops have issued `n`
writes (`n = usersCount * daysCount`). -/
def runWrites : Nat → BatchState
  | 0 => { writeCount := 0, committed := [] }
  | n + 1 => pushWrite (runWrites n)

/-- The committed batch sizes of a whole run: the loop commits on every
450th write and a final `if (writeCount > 0) { commit }` flushes the rest. -/
def backfillBatchSizes (totalWrites : Nat) : List Nat :=
  let st := runWrites totalWrites
  if 0 < st.writeCount then st.committed ++ [st.writeCount] else st.committed

/-- Summary returned by `aggregateWeek`: `{ weekId, topCount }`, the period
identifier and number of leaderboard entries. -/
structure AggResult where
  weekId : String
  topCount : Nat
deriving Repr, DecidableEq

/-- Responses of the `POST /aggregate-weekly` route. -/
inductive RouteResponse where
  | forbidden
  | ok (result : AggResult)
  | aggregationFailed (detail : String)
deriving Repr, DecidableEq

/-- The route handler: `token` is the first non-empty credential among
header, body and query (`none` when absent or empty, both falsy in JS);
`adminTokenEnv` is `process.env.ADMIN_TOKEN` with `""` for unset or empty
(falsy).  The guard is `if (!process.env.ADMIN_TOKEN || token !==
process.env.ADMIN_TOKEN) return 403`.  The second component records whether
`aggregateWeek` was invoked at all. -/
def aggregateWeeklyRoute (adminTokenEnv : String) (token : Option String)
    (runResult : Except String AggResult) : RouteResponse × Bool :=
  if adminTokenEnv = "" ∨ token ≠ some adminTokenEnv then (RouteResponse.forbidden, false)
  else
    match runResult with
    | Except.ok r => (RouteResponse.ok r, true)
    | Except.error msg => (RouteResponse.aggregationFailed msg, true)

/-- The Firestore update `updateUserPoints` submits: `points:
increment(pointsToAdd)` always, `itemsRecycled: increment(1)` only when the
item is recyclable.  The document carries only deltas for the atomic
`increment` primitive, never absolute values. -/
structure CounterUpdate where
  pointsDelta : Nat
  itemsDelta : Nat
deriving Repr, DecidableEq

/-- `updateUserPoints(userId, recyclable, pointsToAdd)` as the update it
submits. -/
def updateUserPointsOp (recyclable : Bool) (pointsToAdd : Nat) : CounterUpdate :=
  { pointsDelta := pointsToAdd
    itemsDelta := if recyclable then 1 else 0 }

/-- Server-side application of one atomic `increment` update to the
`(points, itemsRecycled)` counters of a user document. -/
def applyUpdate (st : Nat × Nat) (u : CounterUpdate) : Nat × Nat :=
  (st.1 + u.pointsDelta, st.2 + u.itemsDelta)

/-- `analyzeWithGemini`: `const pointsEarned = parsed.recyclable ? 10 : 5;`. -/
def pointsEarned (recyclable : Bool) : Nat :=
  if recyclable then 10 else 5

/-- The counter update one successfully analyzed scan submits. -/
def scanUpdate (recyclable : Bool) : CounterUpdate :=
  updateUserPointsOp recyclable (pointsEarned recyclable)

/-- An account whose snapshot series records a decrease across the October
2025 month boundary: 100 cumulative points before the month, 50 inside it. -/
def uDecrease : UserDoc :=
  { uid := "a", name := "Alice A", points := 50, itemsRecycled := 0
    dailyPoints := [⟨"2025-09-15", 100, 0⟩, ⟨"2025-10-10", 50, 0⟩] }

/-- An account following the spec scenario: snapshots `(2025-10-01, 100)` and
`(2025-10-08, 170)` with the live counter at 170 — a monotone ledger. -/
def uMonotone : UserDoc :=
  { uid := "m", name := "Mona M", points := 170, itemsRecycled := 4
    dailyPoints := [⟨"2025-10-01", 100, 2⟩, ⟨"2025-10-08", 170, 2⟩] }

/-- An account whose first-ever snapshot (100 cumulative points) falls inside
October 2025, with no earlier snapshot. -/
def uFirstSnap : UserDoc :=
  { uid := "c", name := "Cara C", points := 100, itemsRecycled := 2
    dailyPoints := [⟨"2025-10-10", 100, 2⟩] }

/-- An account with no snapshot at all and a live counter of 80. -/
def uNoSnaps : UserDoc :=
  { uid := "b", name := "Bob B", points := 80, itemsRecycled := 0, dailyPoints := [] }

/-- Candidate with uid `"zed"`, 5 points gained. -/
def candZ : Candidate := ⟨"zed", "Zed Z", "ZZ", 5, 50, 0⟩

/-- Candidate with uid `"abe"`, also 5 points gained, listed after `candZ`. -/
def candA : Candidate := ⟨"abe", "Abe A", "AA", 5, 40, 0⟩

/-- The 7-day window `2025-10-01 .. 2025-10-07` targeted by a backfill run. -/
def datesBf : List String :=
  ["2025-10-01", "2025-10-02", "2025-10-03", "2025-10-04", "2025-10-05",
   "2025-10-06", "2025-10-07"]

/-- Seven zero draws (a possible outcome of `Math.floor(Math.random()*51)`). -/
def zeros7 : List Nat := [0, 0, 0, 0, 0, 0, 0]

/-- Store after a first backfill run for a user with 100 current points whose
backdrop draw is 0 and whose increments are all 0: every day holds the
correct cumulative 100. -/
def storeRunOnce : DayStore :=
  runBackfillUser emptyDayStore datesBf 100 0 0 zeros7 zeros7

/-- Store after a second backfill run over the same window with no new real
data, whose backdrop draw is 100 and increments all 0. -/
def storeRunTwice : DayStore :=
  runBackfillUser storeRunOnce datesBf 100 0 100 zeros7 zeros7

/-- A healthy account for the fail-soft scenario. -/
def uOkA : UserDoc :=
  { uid := "u1", name := "U One", points := 30, itemsRecycled := 1
    dailyPoints := [⟨"2025-10-05", 30, 1⟩] }

/-- A second healthy account for the fail-soft scenario. -/
def uOkB : UserDoc :=
  { uid := "u2", name := "U Two", points := 20, itemsRecycled := 0
    dailyPoints := [] }

/-- The relation a descending-by-`pointsGained` list satisfies pairwise. -/
def gainGe (a b : Candidate) : Prop := b.pointsGained ≤ a.pointsGained

/-- `aggregateWeek` (`weeklyAggregate.js`): `getDailyPoint(uid, dateStr)` —
the document of the user's `dailyPoints` subcollection keyed by exactly
`dateStr`, or absent. -/
def getDailyPoint (snaps : List Snap) (d : String) : Option Snap :=
  snaps.find? (fun s => decide (s.date = d))

/-- Loop state of `aggregateWeek`'s day-by-day scan over the week:
`pointsAtEnd` and `pointsAtStart` start as `null` (`none`) and
`itemsRecycledTotal` accumulates. -/
structure WeekScanState where
  pointsAtEnd : Option Nat
  pointsAtStart : Option Nat
  itemsRecycledTotal : Nat
deriving Repr, DecidableEq

/-- One day of `aggregateWeek`'s scan: when the day's doc exists,
`pointsAtEnd = dp.points` unconditionally (the last found day wins),
`pointsAtStart = dp.points` only while `!pointsAtStart` (JS truthiness:
still `null` or holding `0`), and `itemsRecycledTotal += dp.itemsRecycled`. -/
def weekScanStep (snaps : List Snap) (st : WeekScanState) (d : String) : WeekScanState :=
  match getDailyPoint snaps d with
  | none => st
  | some dp =>
    { pointsAtEnd := some dp.points
      pointsAtStart :=
        if st.pointsAtStart = none ∨ st.pointsAtStart = some 0 then some dp.points
        else st.pointsAtStart
      itemsRecycledTotal := st.itemsRecycledTotal + dp.itemsRecycled }

/-- The whole `for (let d = weekStart; d <= weekEnd; ...)` scan of
`aggregateWeek`; `weekDates` are the week's day ids in the chronological
order the loop visits them (computed by UTC day arithmetic in the source). -/
def weekScan (snaps : List Snap) (weekDates : List String) : WeekScanState :=
  weekDates.foldl (weekScanStep snaps)
    { pointsAtEnd := none, pointsAtStart := none, itemsRecycledTotal := 0 }

/-- `aggregateWeek`: `pointsAtEnd`, with the `user.points || 0` fallback
applied only when the whole week produced no doc (`pointsAtEnd === null`). -/
def weeklyPointsAtEnd (u : UserDoc) (weekDates : List String) : Nat :=
  (weekScan u.dailyPoints weekDates).pointsAtEnd.getD u.points

/-- `aggregateWeek`: `pointsAtStart`; when the scan left it `null` the code
reads only the doc lying exactly one day before the week start (`dayBefore`)
and uses 0 when that single doc is absent — it does not search for the
nearest earlier snapshot. -/
def weeklyPointsAtStart (u : UserDoc) (weekDates : List String) (dayBefore : String) : Nat :=
  match (weekScan u.dailyPoints weekDates).pointsAtStart with
  | some v => v
  | none =>
    match getDailyPoint u.dailyPoints dayBefore with
    | some dp => dp.points
    | none => 0

/-- `aggregateWeek`: `const pointsGained = (pointsAtEnd || 0) - (pointsAtStart
|| 0);` — plain unclamped subtraction, exactly as in the monthly script. -/
def weeklyPointsGained (u : UserDoc) (weekDates : List String) (dayBefore : String) : Int :=
  (weeklyPointsAtEnd u weekDates : Int) - (weeklyPointsAtStart u weekDates dayBefore : Int)

/-- Invariant of `aggregateWeek`'s day scan, parameterized by the unscanned
dates: start and end are `null` together; the running `pointsAtStart` value
is some recorded snapshot's cumulative whose date precedes every unscanned
day; and the running start never exceeds the running end. -/
def WeekScanInv (u : UserDoc) (st : WeekScanState) (rest : List String) : Prop :=
  (st.pointsAtEnd = none ↔ st.pointsAtStart = none) ∧
  (∀ v, st.pointsAtStart = some v →
    ∃ sn ∈ u.dailyPoints, sn.points = v ∧ ∀ d ∈ rest, strLe sn.date d) ∧
  (∀ v w, st.pointsAtStart = some v → st.pointsAtEnd = some w → v ≤ w)

/-- The week `2025-10-06 .. 2025-10-12` (Monday start), in the chronological
order the weekly loop visits it. -/
def weekDatesOct : List String :=
  ["2025-10-06", "2025-10-07", "2025-10-08", "2025-10-09", "2025-10-10",
   "2025-10-11", "2025-10-12"]

/-- The day exactly one before that week's start. -/
def dayBeforeOct : String := "2025-10-05"

/-- An account whose in-week series records a decrease: 100 cumulative points
on Monday, 40 on Tuesday. -/
def uWeekDecrease : UserDoc :=
  { uid := "w", name := "Wes W", points := 40, itemsRecycled := 0
    dailyPoints := [⟨"2025-10-06", 100, 0⟩, ⟨"2025-10-07", 40, 0⟩] }

/-- An account whose only snapshot (50 points) lies four days before the week
start — older than the single `dayBefore` doc the weekly fallback reads —
with live counter 80 and no in-week snapshot. -/
def uPreWeek : UserDoc :=
  { uid := "p", name := "Pre P", points := 80, itemsRecycled := 0
    dailyPoints := [⟨"2025-10-02", 50, 0⟩] }

theorem strLt_irrefl (a : String) : ¬ strLt a a :=
  lt_irrefl a.data

theorem strLe_of_strLt {a b : String} (h : strLt a b) : strLe a b :=
  lt_asymm h

theorem strLt_strLe_trans {a b c : String} (h1 : strLt a b) (h2 : strLe b c) : strLe a c := by
  unfold strLt at h1
  unfold strLe at h2 ⊢
  rw [not_lt] at h2 ⊢
  exact le_trans (le_of_lt h1) h2

theorem maxByDate_mem : ∀ {l : List Snap} {m : Snap}, maxByDate l = some m → m ∈ l := by
  intro l
  induction l with
  | nil => intro m h; simp [maxByDate] at h
  | cons s rest ih =>
    intro m h
    rw [maxByDate] at h
    cases h2 : maxByDate rest with
    | none =>
      rw [h2] at h
      cases h
      exact List.mem_cons_self s rest
    | some mm =>
      rw [h2] at h
      dsimp only at h
      by_cases hc : strLt mm.date s.date
      · rw [if_pos hc] at h
        cases h
        exact List.mem_cons_self s rest
      · rw [if_neg hc] at h
        cases h
        exact List.mem_cons_of_mem s (ih h2)

theorem pointsStart_le_pointsEnd (u : UserDoc) (s e : String) (h : MonotoneLedger u) :
    pointsStart u s ≤ pointsEnd u s e := by
  unfold pointsStart
  cases h1 : maxByDate (u.dailyPoints.filter fun sn => decide (strLt sn.date s)) with
  | none => exact Nat.zero_le _
  | some m =>
    have hm := maxByDate_mem h1
    rw [List.mem_filter] at hm
    obtain ⟨hmem, hdec⟩ := hm
    have hlt : strLt m.date s := of_decide_eq_true hdec
    unfold pointsEnd
    cases h2 : maxByDate (u.dailyPoints.filter fun sn =>
        decide (strLe s sn.date ∧ strLe sn.date e)) with
    | none => exact h.2 m hmem
    | some m2 =>
      have hm2 := maxByDate_mem h2
      rw [List.mem_filter] at hm2
      obtain ⟨hmem2, hdec2⟩ := hm2
      have hrange : strLe s m2.date ∧ strLe m2.date e := of_decide_eq_true hdec2
      exact h.1 m hmem m2 hmem2 (strLt_strLe_trans hlt hrange.1)

theorem getDailyPoint_mem {snaps : List Snap} {d : String} {dp : Snap}
    (h : getDailyPoint snaps d = some dp) : dp ∈ snaps :=
  List.mem_of_find?_eq_some h

theorem getDailyPoint_date {snaps : List Snap} {d : String} {dp : Snap}
    (h : getDailyPoint snaps d = some dp) : dp.date = d := by
  unfold getDailyPoint at h
  have h2 := List.find?_some h
  simp only [decide_eq_true_eq] at h2
  exact h2

theorem weekScan_inv (u : UserDoc) (hm : MonotoneLedger u) :
    ∀ (dates : List String), dates.Pairwise strLe →
      ∀ st, WeekScanInv u st dates →
        WeekScanInv u (dates.foldl (weekScanStep u.dailyPoints) st) [] := by
  intro dates
  induction dates with
  | nil =>
    intro _ st h
    exact h
  | cons d rest ih =>
    intro hp st hst
    rw [List.pairwise_cons] at hp
    rw [List.foldl_cons]
    apply ih hp.2
    cases hd : getDailyPoint u.dailyPoints d with
    | none =>
      have hstep : weekScanStep u.dailyPoints st d = st := by
        unfold weekScanStep
        rw [hd]
      rw [hstep]
      refine ⟨hst.1, ?_, hst.2.2⟩
      intro v hv
      obtain ⟨sn, hmem, hpts, hdates⟩ := hst.2.1 v hv
      exact ⟨sn, hmem, hpts, fun d2 hd2 => hdates d2 (List.mem_cons_of_mem d hd2)⟩
    | some dp =>
      have hdp_mem : dp ∈ u.dailyPoints := getDailyPoint_mem hd
      have hdp_date : dp.date = d := getDailyPoint_date hd
      have hstep : weekScanStep u.dailyPoints st d =
          { pointsAtEnd := some dp.points
            pointsAtStart :=
              if st.pointsAtStart = none ∨ st.pointsAtStart = some 0 then some dp.points
              else st.pointsAtStart
            itemsRecycledTotal := st.itemsRecycledTotal + dp.itemsRecycled } := by
        unfold weekScanStep
        rw [hd]
      rw [hstep]
      by_cases hf : st.pointsAtStart = none ∨ st.pointsAtStart = some 0
      · rw [if_pos hf]
        refine ⟨Iff.rfl, ?_, ?_⟩
        · intro v hv
          cases hv
          exact ⟨dp, hdp_mem, rfl, fun d2 hd2 => by
            rw [hdp_date]
            exact hp.1 d2 hd2⟩
        · intro v w hv hw
          cases hv
          cases hw
          exact le_refl _
      · rw [if_neg hf]
        refine ⟨?_, ?_, ?_⟩
        · constructor
          · intro h
            cases h
          · intro h
            exact absurd (Or.inl h) hf
        · intro v hv
          obtain ⟨sn, hmem, hpts, hdates⟩ := hst.2.1 v hv
          exact ⟨sn, hmem, hpts, fun d2 hd2 => hdates d2 (List.mem_cons_of_mem d hd2)⟩
        · intro v w hv hw
          cases hw
          obtain ⟨sn, hmem, hpts, hdates⟩ := hst.2.1 v hv
          have h1 : strLe sn.date d := hdates d (List.mem_cons_self d rest)
          rw [← hdp_date] at h1
          have h2 := hm.1 sn hmem dp hdp_mem h1
          rw [hpts] at h2
          exact h2

theorem weeklyStart_le_weeklyEnd (u : UserDoc) (weekDates : List String) (dayBefore : String)
    (hm : MonotoneLedger u) (hs : weekDates.Pairwise strLe) :
    weeklyPointsAtStart u weekDates dayBefore ≤ weeklyPointsAtEnd u weekDates := by
  have hinit : WeekScanInv u
      { pointsAtEnd := none, pointsAtStart := none, itemsRecycledTotal := 0 } weekDates := by
    refine ⟨Iff.rfl, ?_, ?_⟩
    · intro v hv
      cases hv
    · intro v w hv _
      cases hv
  have hinv := weekScan_inv u hm weekDates hs _ hinit
  unfold weeklyPointsAtStart weeklyPointsAtEnd
  have hws : weekScan u.dailyPoints weekDates =
      weekDates.foldl (weekScanStep u.dailyPoints)
        { pointsAtEnd := none, pointsAtStart := none, itemsRecycledTotal := 0 } := rfl
  rw [hws]
  set fin := weekDates.foldl (weekScanStep u.dailyPoints)
    { pointsAtEnd := none, pointsAtStart := none, itemsRecycledTotal := 0 } with hfin
  cases hE : fin.pointsAtEnd with
  | none =>
    have hS : fin.pointsAtStart = none := hinv.1.mp hE
    rw [hS]
    cases hdb : getDailyPoint u.dailyPoints dayBefore with
    | none => simp
    | some dp =>
      have hle := hm.2 dp (getDailyPoint_mem hdb)
      simpa using hle
  | some e2 =>
    cases hS : fin.pointsAtStart with
    | none =>
      exfalso
      rw [hinv.1.mpr hS] at hE
      cases hE
    | some s2 =>
      simpa using hinv.2.2 s2 e2 hS hE

theorem weekScan_all_none (snaps : List Snap) :
    ∀ (dates : List String), (∀ d ∈ dates, getDailyPoint snaps d = none) →
      weekScan snaps dates =
        { pointsAtEnd := none, pointsAtStart := none, itemsRecycledTotal := 0 } := by
  intro dates
  induction dates with
  | nil => intro _; rfl
  | cons d rest ih =>
    intro h
    have hd := h d (List.mem_cons_self d rest)
    have hstep : weekScanStep snaps
        { pointsAtEnd := none, pointsAtStart := none, itemsRecycledTotal := 0 } d =
        { pointsAtEnd := none, pointsAtStart := none, itemsRecycledTotal := 0 } := by
      unfold weekScanStep
      rw [hd]
    unfold weekScan at ih ⊢
    rw [List.foldl_cons, hstep]
    exact ih (fun d2 hd2 => h d2 (List.mem_cons_of_mem d hd2))

/-- C1 counterexample: neither ranking path clamps.  The monthly gain for
`uDecrease`, whose series records a decrease across the October 2025
boundary, is `-50`, not `max(0, ·) = 0`; the weekly gain for
`uWeekDecrease`, whose in-week series drops from 100 to 40, is `-60`, not
`max(0, ·) = 0`.  Both code paths perform plain subtraction, so the gain
written to the leaderboard can be negative. -/
theorem C1_counterexample :
    monthlyPointsGained uDecrease "2025-10-01" "2025-10-31" = -50 ∧
    monthlyPointsGained uDecrease "2025-10-01" "2025-10-31" ≠
      max 0 (monthlyPointsGained uDecrease "2025-10-01" "2025-10-31") ∧
    weeklyPointsGained uWeekDecrease weekDatesOct dayBeforeOct = -60 ∧
    weeklyPointsGained uWeekDecrease weekDatesOct dayBeforeOct ≠
      max 0 (weeklyPointsGained uWeekDecrease weekDatesOct dayBeforeOct) := by
  decide

/-- C1 (amended): neither ranking path applies a `max(0, ·)` clamp, so a
recorded decrease yields a negative written gain.  The monthly path writes
exactly `pointsEnd − pointsStart` with the boundary definitions (last
snapshot strictly before the period start or 0; last in-period snapshot or
the current counter).  The weekly path writes
`pointsAtEnd − pointsAtStart`, where `pointsAtEnd` is the last in-week
snapshot (or the current counter if none) and `pointsAtStart` comes from the
in-week scan itself — the first in-week snapshot when the week contains any
— falling back to the doc exactly one day before the week start (or 0) only
otherwise.  Under the monotone-ledger assumption both gains are
non-negative (the weekly one for the chronologically ordered day scan the
code performs). -/
theorem C1_gain_is_unclamped_boundary_delta (u : UserDoc) (s e : String)
    (weekDates : List String) (dayBefore : String) :
    monthlyPointsGained u s e = (pointsEnd u s e : Int) - (pointsStart u s : Int) ∧
    weeklyPointsGained u weekDates dayBefore =
      (weeklyPointsAtEnd u weekDates : Int) -
        (weeklyPointsAtStart u weekDates dayBefore : Int) ∧
    (MonotoneLedger u → 0 ≤ monthlyPointsGained u s e) ∧
    (MonotoneLedger u → weekDates.Pairwise strLe →
      0 ≤ weeklyPointsGained u weekDates dayBefore) := by
  refine ⟨rfl, rfl, ?_, ?_⟩
  · intro h
    unfold monthlyPointsGained
    have := pointsStart_le_pointsEnd u s e h
    omega
  · intro h hs
    unfold weeklyPointsGained
    have h2 := weeklyStart_le_weeklyEnd u weekDates dayBefore h hs
    omega

/-- C1 witness: the spec-scenario account `uMonotone` is a monotone ledger,
the October week's days are scanned in chronological order, and both its
monthly and weekly gains are non-negative. -/
theorem C1_witness :
    MonotoneLedger uMonotone ∧
    weekDatesOct.Pairwise strLe ∧
    0 ≤ monthlyPointsGained uMonotone "2025-10-01" "2025-10-31" ∧
    0 ≤ weeklyPointsGained uMonotone weekDatesOct dayBeforeOct :=
  ⟨by decide, by decide,
   (C1_gain_is_unclamped_boundary_delta uMonotone "2025-10-01" "2025-10-31"
      weekDatesOct dayBeforeOct).2.2.1 (by decide),
   (C1_gain_is_unclamped_boundary_delta uMonotone "2025-10-01" "2025-10-31"
      weekDatesOct dayBeforeOct).2.2.2 (by decide) (by decide)⟩

/-- C2 counterexample: for `uFirstSnap`, whose first-ever snapshot (100
points, 2025-10-10) falls inside October 2025 with no earlier snapshot, the
boundary-delta ranking path computes a gain of 100 — the snapshot's full
cumulative value — not 0, while the chart path computes 0 for the same day:
the zero-baseline convention does not hold uniformly in both paths. -/
theorem C2_counterexample :
    monthlyPointsGained uFirstSnap "2025-10-01" "2025-10-31" = 100 ∧
    (100 : Int) ≠ 0 ∧
    chartGainFor [("2025-10-10", (100 : Int))] "2025-10-10" = 0 := by
  decide

/-- C2 (amended): the zero-baseline convention holds only in the per-day
chart-reconstruction path — with a single (first-ever) snapshot on record
the chart gain is 0 for every displayed day until a second snapshot exists —
whereas the boundary-delta ranking path attributes the first snapshot's full
cumulative value as the period gain. -/
theorem C2_zero_baseline_chart_only :
    (∀ (p : String × Int) (d : String), chartGainFor [p] d = 0) ∧
    (∀ (u : UserDoc) (s e : String) (sn : Snap), u.dailyPoints = [sn] →
      strLe s sn.date → strLe sn.date e →
      monthlyPointsGained u s e = (sn.points : Int)) := by
  constructor
  · intro p d
    unfold chartGainFor chartLastOnOrBefore chartLastBefore
    by_cases h : strLe p.1 d
    · simp [List.find?, h, strLt_irrefl p.1]
    · simp [List.find?, h]
  · intro u s e sn hu hs he
    have h1 : decide (strLt sn.date s) = false := decide_eq_false hs
    have h2 : decide (strLe s sn.date ∧ strLe sn.date e) = true := decide_eq_true ⟨hs, he⟩
    unfold monthlyPointsGained pointsStart pointsEnd
    rw [hu]
    simp [List.filter, h1, h2, maxByDate]

/-- C2 witness: the chart gain for the day of `uFirstSnap`'s only snapshot is
0, and the ranking path assigns it its full 100 cumulative points. -/
theorem C2_witness :
    chartGainFor [("2025-10-10", (100 : Int))] "2025-10-12" = 0 ∧
    monthlyPointsGained uFirstSnap "2025-10-01" "2025-10-31" =
      ((Snap.mk "2025-10-10" 100 2).points : Int) :=
  ⟨C2_zero_baseline_chart_only.1 ("2025-10-10", (100 : Int)) "2025-10-12",
   C2_zero_baseline_chart_only.2 uFirstSnap "2025-10-01" "2025-10-31"
     (Snap.mk "2025-10-10" 100 2) rfl (by decide) (by decide)⟩

/-- C5 counterexample: the account `uNoSnaps` has no snapshot at all inside
October 2025 (indeed none anywhere), yet the monthly builder computes a gain
of 80 — its full current counter via the `pointsEnd` fallback — not 0 as the
claim states.  The weekly path also violates the claim, with a different
baseline: `uPreWeek` has no in-week snapshot but does have one (50 points)
four days before the week start; the weekly gain is its full counter 80 —
not 0, and not the 30 that subtracting the last pre-period snapshot would
give — because the fallback consults only the doc exactly one day before the
week start. -/
theorem C5_counterexample :
    uNoSnaps.dailyPoints = [] ∧
    monthlyPointsGained uNoSnaps "2025-10-01" "2025-10-31" = 80 ∧
    (80 : Int) ≠ 0 ∧
    weeklyPointsGained uPreWeek weekDatesOct dayBeforeOct = 80 ∧
    pointsStart uPreWeek "2025-10-06" = 50 ∧
    weeklyPointsGained uPreWeek weekDatesOct dayBeforeOct ≠
      (uPreWeek.points : Int) - (pointsStart uPreWeek "2025-10-06" : Int) := by
  decide

/-- C5 (amended): for an account with no snapshot inside the queried period
the gain is not 0 in general: both paths fall back to the live counter for
the period-end value, while the subtracted baseline differs per path — the
monthly path subtracts the last snapshot strictly before the period start
(or 0 if none), whereas the weekly path subtracts only the doc lying exactly
one day before the week start (or 0 if that single doc is absent, even when
older snapshots exist).  The account is then ranked by that value like any
other candidate. -/
theorem C5_no_snapshot_fallback_gain (u : UserDoc) (s e : String)
    (weekDates : List String) (dayBefore : String) :
    (u.dailyPoints.filter (fun sn => decide (strLe s sn.date ∧ strLe sn.date e)) = [] →
      monthlyPointsGained u s e = (u.points : Int) - (pointsStart u s : Int)) ∧
    ((∀ d ∈ weekDates, getDailyPoint u.dailyPoints d = none) →
      weeklyPointsGained u weekDates dayBefore =
        (u.points : Int) -
          (((getDailyPoint u.dailyPoints dayBefore).map
              (fun dp => (dp.points : Int))).getD 0)) := by
  constructor
  · intro h
    unfold monthlyPointsGained pointsEnd
    rw [h]
    rfl
  · intro h
    unfold weeklyPointsGained weeklyPointsAtEnd weeklyPointsAtStart
    rw [weekScan_all_none u.dailyPoints weekDates h]
    cases hdb : getDailyPoint u.dailyPoints dayBefore with
    | none => simp
    | some dp => simp

/-- C5 witness: the fallback characterizations applied to `uNoSnaps` (monthly
path, empty in-month filter) and to `uPreWeek` (weekly path, no in-week doc,
absent day-before doc so the baseline is 0). -/
theorem C5_witness :
    uNoSnaps.dailyPoints.filter
      (fun sn => decide (strLe "2025-10-01" sn.date ∧ strLe sn.date "2025-10-31")) = [] ∧
    monthlyPointsGained uNoSnaps "2025-10-01" "2025-10-31" =
      (uNoSnaps.points : Int) - (pointsStart uNoSnaps "2025-10-01" : Int) ∧
    weeklyPointsGained uPreWeek weekDatesOct dayBeforeOct =
      (uPreWeek.points : Int) -
        (((getDailyPoint uPreWeek.dailyPoints dayBeforeOct).map
            (fun dp => (dp.points : Int))).getD 0) :=
  ⟨by decide,
   (C5_no_snapshot_fallback_gain uNoSnaps "2025-10-01" "2025-10-31"
      weekDatesOct dayBeforeOct).1 (by decide),
   (C5_no_snapshot_fallback_gain uPreWeek "2025-10-01" "2025-10-31"
      weekDatesOct dayBeforeOct).2 (by decide)⟩

theorem perm_insertByGainedDesc (c : Candidate) :
    ∀ (l : List Candidate), (insertByGainedDesc c l).Perm (c :: l) := by
  intro l
  induction l with
  | nil => exact List.Perm.refl [c]
  | cons x xs ih =>
    unfold insertByGainedDesc
    by_cases h : c.pointsGained ≤ x.pointsGained
    · rw [if_pos h]
      exact (ih.cons x).trans (List.Perm.swap c x xs)
    · rw [if_neg h]

theorem pairwise_insertByGainedDesc (c : Candidate) :
    ∀ {l : List Candidate}, l.Pairwise gainGe → (insertByGainedDesc c l).Pairwise gainGe := by
  intro l
  induction l with
  | nil =>
    intro _
    simp [insertByGainedDesc]
  | cons x xs ih =>
    intro h
    rw [List.pairwise_cons] at h
    obtain ⟨hx, hxs⟩ := h
    unfold insertByGainedDesc
    by_cases hc : c.pointsGained ≤ x.pointsGained
    · rw [if_pos hc, List.pairwise_cons]
      refine ⟨?_, ih hxs⟩
      intro y hy
      have hy0 : y ∈ c :: xs := (perm_insertByGainedDesc c xs).mem_iff.1 hy
      rcases List.mem_cons.1 hy0 with hy1 | hy2
      · rw [hy1]
        exact hc
      · exact hx y hy2
    · rw [if_neg hc, List.pairwise_cons]
      refine ⟨?_, List.pairwise_cons.mpr ⟨hx, hxs⟩⟩
      intro y hy
      rcases List.mem_cons.1 hy with hy1 | hy2
      · rw [hy1]
        exact le_of_lt (lt_of_not_le hc)
      · exact le_trans (hx y hy2) (le_of_lt (lt_of_not_le hc))

theorem foldl_insert_pairwise :
    ∀ (l acc : List Candidate), acc.Pairwise gainGe →
      (l.foldl (fun a c => insertByGainedDesc c a) acc).Pairwise gainGe := by
  intro l
  induction l with
  | nil => intro acc h; exact h
  | cons c l ih =>
    intro acc h
    exact ih (insertByGainedDesc c acc) (pairwise_insertByGainedDesc c h)

theorem foldl_insert_perm :
    ∀ (l acc : List Candidate),
      (l.foldl (fun a c => insertByGainedDesc c a) acc).Perm (l ++ acc) := by
  intro l
  induction l with
  | nil => intro acc; exact List.Perm.refl acc
  | cons c l ih =>
    intro acc
    have h1 := ih (insertByGainedDesc c acc)
    have h2 : (l ++ insertByGainedDesc c acc).Perm (l ++ (c :: acc)) :=
      (perm_insertByGainedDesc c acc).append_left l
    exact (h1.trans (h2.trans List.perm_middle))

theorem sortByGainedDesc_pairwise (l : List Candidate) :
    (sortByGainedDesc l).Pairwise gainGe :=
  foldl_insert_pairwise l [] List.Pairwise.nil

theorem sortByGainedDesc_perm (l : List Candidate) : (sortByGainedDesc l).Perm l := by
  have h := foldl_insert_perm l []
  rw [List.append_nil] at h
  exact h

theorem enum_map_rank {α : Type} (l : List α) :
    l.enum.map (fun p => p.1 + 1) = List.range' 1 l.length := by
  have h1 : l.enum.map (fun p => p.1 + 1) = (l.enum.map Prod.fst).map (fun i => i + 1) := by
    rw [List.map_map]
    rfl
  rw [h1, List.enum_map_fst, List.range'_eq_map_range]
  simp [Nat.add_comm]

theorem applyWrites_apply :
    ∀ (ws : List DayWrite) (f : DayStore) (d : String),
      applyWrites f ws d =
        ((findLastWrite ws d).map (fun w => (w.points, w.itemsRecycled))).or (f d) := by
  intro ws
  induction ws with
  | nil => intro f d; rfl
  | cons w ws ih =>
    intro f d
    have h1 : applyWrites f (w :: ws) d = applyWrites (setMergeWrite f w) ws d := rfl
    rw [h1, ih]
    have h2 : findLastWrite (w :: ws) d =
        ((List.find? (fun x => decide (x.date = d)) ws.reverse).or
          (List.find? (fun x => decide (x.date = d)) [w])) := by
      unfold findLastWrite
      rw [List.reverse_cons, List.find?_append]
    rw [h2]
    cases hf : List.find? (fun x => decide (x.date = d)) ws.reverse with
    | some w2 =>
      unfold findLastWrite
      rw [hf]
      rfl
    | none =>
      unfold findLastWrite
      rw [hf]
      by_cases hd : w.date = d
      · rw [List.find?_cons_of_pos _ (by simpa using hd)]
        unfold setMergeWrite
        rw [if_pos hd.symm]
        rfl
      · rw [List.find?_cons_of_neg _ (by simpa using hd), List.find?_nil]
        unfold setMergeWrite
        rw [if_neg (fun hh => hd hh.symm)]
        rfl

/-- C3 counterexample: a first backfill run over the 7-day window
`2025-10-01..2025-10-07` (backdrop draw 0, zero increments) writes the
correct cumulative 100 on every day; a second run over the same window with
no new real data but fresh random draws (backdrop 100, zero increments)
overwrites the day `2025-10-07` with 0 — a change to a previously-correct
snapshot, and an overwrite below the stored cumulative, so the tool is not
idempotent and does not merge-protect existing counters. -/
theorem C3_counterexample :
    storeRunOnce "2025-10-07" = some (100, 0) ∧
    storeRunTwice "2025-10-07" = some (0, 0) ∧
    (0 : Nat) < 100 := by
  decide

/-- C3 (amended): the backfill run is idempotent only for fixed random
draws — re-running with the identical backdrop, increment and item draws
rewrites every targeted day with the very same values and leaves the store
unchanged; in general a rerun regenerates the synthetic series and
overwrites each day's counters (`merge: true` still replaces the written
`points` and `itemsRecycled` fields), possibly with lower values. -/
theorem C3_idempotent_only_for_fixed_draws (f : DayStore) (dates : List String)
    (currentPoints itemsRecycledBase r0 : Nat) (incs itemDraws : List Nat) :
    runBackfillUser (runBackfillUser f dates currentPoints itemsRecycledBase r0 incs itemDraws)
        dates currentPoints itemsRecycledBase r0 incs itemDraws =
      runBackfillUser f dates currentPoints itemsRecycledBase r0 incs itemDraws := by
  funext d
  unfold runBackfillUser
  simp only [applyWrites_apply]
  cases h : findLastWrite
      (backfillWrites dates currentPoints itemsRecycledBase r0 incs itemDraws) d with
  | some w => simp [h]
  | none => simp [h]

theorem collectAccounts_error_of_mem :
    ∀ {l : List (Except String UserDoc)} {msg : String},
      Except.error msg ∈ l → ∃ m2, collectAccounts l = Except.error m2 := by
  intro l
  induction l with
  | nil => intro msg h; cases h
  | cons a rest ih =>
    intro msg h
    rcases List.mem_cons.1 h with h1 | h2
    · rw [← h1]
      exact ⟨msg, rfl⟩
    · obtain ⟨m2, hm2⟩ := ih h2
      cases a with
      | error e => exact ⟨e, rfl⟩
      | ok u =>
        refine ⟨m2, ?_⟩
        unfold collectAccounts
        rw [hm2]

theorem collectAccounts_ok :
    ∀ (l : List (Except String UserDoc)),
      (∀ a ∈ l, ∃ u, a = Except.ok u) → ∃ us, collectAccounts l = Except.ok us := by
  intro l
  induction l with
  | nil => intro _; exact ⟨[], rfl⟩
  | cons a rest ih =>
    intro h
    obtain ⟨u, hu⟩ := h a (List.mem_cons_self a rest)
    obtain ⟨us, hus⟩ := ih (fun b hb => h b (List.mem_cons_of_mem a hb))
    refine ⟨u :: us, ?_⟩
    rw [hu]
    unfold collectAccounts
    rw [hus]

/-- C6 counterexample: with accounts `[ok uOkA, error "boom", ok uOkB]` the
monthly builder run aborts with the error — it does not continue over the
remaining accounts — and no leaderboard snapshot is written, contradicting
the claimed fail-soft per-account behavior. -/
theorem C6_counterexample :
    createMonthlyRun [Except.ok uOkA, Except.error "boom", Except.ok uOkB]
      "2025-10-01" "2025-10-31" 10 = Except.error "boom" ∧
    createMonthlyWrite "2025-10" "2025-10-01" "2025-10-31"
      [Except.ok uOkA, Except.error "boom", Except.ok uOkB] 10 = none :=
  ⟨rfl, rfl⟩

/-- C6 (amended): the builder loop has no per-account error handling — an
error raised while computing any account's delta aborts the whole run and no
leaderboard snapshot is written (the previous snapshot for the period stays
in place); a snapshot is written exactly when every account's computation
succeeds. -/
theorem C6_account_error_aborts_run (accounts : List (Except String UserDoc))
    (monthId startStr endStr : String) (topN : Nat) :
    ((∃ msg, Except.error msg ∈ accounts) →
      createMonthlyWrite monthId startStr endStr accounts topN = none) ∧
    ((∀ a ∈ accounts, ∃ u, a = Except.ok u) →
      ∃ snap, createMonthlyWrite monthId startStr endStr accounts topN = some snap) := by
  constructor
  · intro h
    obtain ⟨msg, hmem⟩ := h
    obtain ⟨m2, hm2⟩ := collectAccounts_error_of_mem hmem
    unfold createMonthlyWrite createMonthlyRun
    rw [hm2]
  · intro h
    obtain ⟨us, hus⟩ := collectAccounts_ok accounts h
    unfold createMonthlyWrite createMonthlyRun
    rw [hus]
    exact ⟨_, rfl⟩

/-- C6 witness: instantiating the abort characterization on a concrete run
with one failing account and on a concrete all-healthy run. -/
theorem C6_witness :
    createMonthlyWrite "2025-10" "2025-10-01" "2025-10-31"
      [Except.ok uOkA, Except.error "down", Except.ok uOkB] 10 = none ∧
    ∃ snap, createMonthlyWrite "2025-10" "2025-10-01" "2025-10-31"
      [Except.ok uOkA, Except.ok uOkB] 10 = some snap :=
  ⟨(C6_account_error_aborts_run [Except.ok uOkA, Except.error "down", Except.ok uOkB]
      "2025-10" "2025-10-01" "2025-10-31" 10).1
     ⟨"down", List.mem_cons_of_mem _ (List.mem_cons_self _ _)⟩,
   (C6_account_error_aborts_run [Except.ok uOkA, Except.ok uOkB]
      "2025-10" "2025-10-01" "2025-10-31" 10).2
     (by
       intro a ha
       rcases List.mem_cons.1 ha with h1 | h2
       · exact ⟨uOkA, h1⟩
       · rw [List.mem_singleton] at h2
         exact ⟨uOkB, h2⟩)⟩

/-- C7 (confirmed): each `updateUserPoints` call submits an atomic-add
update carrying only deltas, so the two concurrent increments — +10 from a
recyclable scan and +5 from a non-recyclable one — serialize in either order
and both serializations land on cumulative +15: no interleaving of the
atomic-add primitive can lose an update, unlike a read-modify-write. -/
theorem C7_concurrent_increments_sum (st : Nat × Nat) :
    (applyUpdate (applyUpdate st (updateUserPointsOp true 10)) (updateUserPointsOp false 5)).1 =
      st.1 + 15 ∧
    (applyUpdate (applyUpdate st (updateUserPointsOp false 5)) (updateUserPointsOp true 10)).1 =
      st.1 + 15 := by
  unfold applyUpdate updateUserPointsOp
  dsimp only
  omega

theorem runWrites_eq (n : Nat) :
    runWrites n = { writeCount := n % 450, committed := List.replicate (n / 450) 450 } := by
  induction n with
  | zero => rfl
  | succ n ih =>
    rw [runWrites, ih]
    unfold pushWrite writesPerBatch
    by_cases h : 450 ≤ n % 450 + 1
    · have h449 : n % 450 = 449 := by omega
      have h1 : (n + 1) % 450 = 0 := by omega
      have h2 : (n + 1) / 450 = n / 450 + 1 := by omega
      rw [if_pos h, h1, h2, h449, List.replicate_succ']
    · have h1 : (n + 1) % 450 = n % 450 + 1 := by omega
      have h2 : (n + 1) / 450 = n / 450 := by omega
      rw [if_neg h, h1, h2]

theorem backfillBatchSizes_eq (n : Nat) :
    backfillBatchSizes n =
      List.replicate (n / 450) 450 ++ (if 0 < n % 450 then [n % 450] else []) := by
  unfold backfillBatchSizes
  rw [runWrites_eq]
  by_cases h : 0 < n % 450
  · rw [if_pos h, if_pos h]
  · rw [if_neg h, if_neg h, List.append_nil]

/-- C8 (confirmed): with `writesPerBatch = 450` (below the store's 500-write
limit), every batch the backfill tool commits for its
`usersCount * daysCount` planned writes holds at most 450 operations, and a
run needing more than 450 writes commits at least two batches instead of one
unbounded batch. -/
theorem C8_batches_bounded (usersCount daysCount : Nat) :
    writesPerBatch = 450 ∧
    writesPerBatch < 500 ∧
    (∀ b ∈ backfillBatchSizes (usersCount * daysCount), b ≤ writesPerBatch) ∧
    (writesPerBatch < usersCount * daysCount →
      2 ≤ (backfillBatchSizes (usersCount * daysCount)).length) := by
  refine ⟨rfl, by decide, ?_, ?_⟩
  · intro b hb
    rw [backfillBatchSizes_eq] at hb
    rcases List.mem_append.1 hb with h1 | h2
    · rw [List.eq_of_mem_replicate h1]
      exact le_refl _
    · by_cases h : 0 < usersCount * daysCount % 450
      · rw [if_pos h, List.mem_singleton] at h2
        rw [h2]
        unfold writesPerBatch
        omega
      · rw [if_neg h] at h2
        cases h2
  · intro h
    rw [backfillBatchSizes_eq, List.length_append, List.length_replicate]
    unfold writesPerBatch at h
    by_cases h2 : 0 < usersCount * daysCount % 450
    · rw [if_pos h2]
      simp only [List.length_singleton]
      omega
    · rw [if_neg h2]
      simp only [List.length_nil]
      omega

/-- C8 witness: a run of 3 accounts over 200 days (600 planned writes)
commits at least two batches; its first committed batch holds exactly 450
writes, within the bound. -/
theorem C8_witness :
    (450 : Nat) ≤ writesPerBatch ∧ 2 ≤ (backfillBatchSizes (3 * 200)).length :=
  ⟨(C8_batches_bounded 3 200).2.2.1 450 (by simp [backfillBatchSizes_eq]),
   (C8_batches_bounded 3 200).2.2.2 (by decide)⟩

/-- C9 (confirmed): the aggregation trigger rejects with a 403 forbidden
response — starting no aggregation job — whenever no admin token is
configured or the supplied credential differs from it; when the credential
matches, `aggregateWeek` runs and a successful run's response carries its
`{weekId, topCount}` summary (period identifier and entry count). -/
theorem C9_admin_token_gate (adminTokenEnv : String) (token : Option String)
    (runResult : Except String AggResult) :
    ((adminTokenEnv = "" ∨ token ≠ some adminTokenEnv) →
      aggregateWeeklyRoute adminTokenEnv token runResult = (RouteResponse.forbidden, false)) ∧
    (adminTokenEnv ≠ "" → token = some adminTokenEnv →
      (aggregateWeeklyRoute adminTokenEnv token runResult).2 = true ∧
      ∀ r, runResult = Except.ok r →
        aggregateWeeklyRoute adminTokenEnv token runResult = (RouteResponse.ok r, true)) := by
  constructor
  · intro h
    unfold aggregateWeeklyRoute
    rw [if_pos h]
  · intro h1 h2
    have hcond : ¬ (adminTokenEnv = "" ∨ token ≠ some adminTokenEnv) := by
      intro hc
      rcases hc with hc1 | hc2
      · exact h1 hc1
      · exact hc2 h2
    constructor
    · unfold aggregateWeeklyRoute
      rw [if_neg hcond]
      cases runResult with
      | ok r => rfl
      | error msg => rfl
    · intro r hr
      unfold aggregateWeeklyRoute
      rw [if_neg hcond, hr]

/-- C9 witness: with the configured token `"s3cret"`, a mismatched credential
is rejected without starting the job, and the matching credential yields the
`{weekId, topCount}` summary of the run. -/
theorem C9_witness :
    aggregateWeeklyRoute "s3cret" (some "wrong")
        (Except.ok (AggResult.mk "W-2025-10-06" 10)) = (RouteResponse.forbidden, false) ∧
    aggregateWeeklyRoute "s3cret" (some "s3cret")
        (Except.ok (AggResult.mk "W-2025-10-06" 10)) =
      (RouteResponse.ok (AggResult.mk "W-2025-10-06" 10), true) :=
  ⟨(C9_admin_token_gate "s3cret" (some "wrong")
      (Except.ok (AggResult.mk "W-2025-10-06" 10))).1 (by decide),
   ((C9_admin_token_gate "s3cret" (some "s3cret")
      (Except.ok (AggResult.mk "W-2025-10-06" 10))).2 (by decide) rfl).2
     (AggResult.mk "W-2025-10-06" 10) rfl⟩

/-- C10 (confirmed): every successfully analyzed scan earns
`pointsEarned = recyclable ? 10 : 5`, a strictly positive award, so the
cumulative points counter strictly increases on every scan; the
`itemsRecycled` counter is incremented by exactly 1 for recyclable items and
left unchanged otherwise. -/
theorem C10_scan_award (st : Nat × Nat) (recyclable : Bool) :
    pointsEarned true = 10 ∧
    pointsEarned false = 5 ∧
    0 < pointsEarned recyclable ∧
    (applyUpdate st (scanUpdate recyclable)).1 = st.1 + pointsEarned recyclable ∧
    st.1 < (applyUpdate st (scanUpdate recyclable)).1 ∧
    (applyUpdate st (scanUpdate recyclable)).2 = st.2 + (if recyclable then 1 else 0) := by
  cases recyclable <;>
    simp [pointsEarned, scanUpdate, updateUserPointsOp, applyUpdate]

end CodeRedAstra
